import Mathlib

/-
Verification of the ez_lib pooled Postgres session manager and record
serialization layer (src/ez_lib/postgres.py) against its specification.

The embedding below mirrors the Python source:
  - AsyncPgWrapper        -> ClsAttrs (class-level attributes), PgState
                             (instance engine / session-maker state),
                             asyncPgWrapper_init, init_pool, get_session, close
  - AbstractModelHelper   -> ModelCls / ModelInst, from_dict, to_values_dict,
                             log_field_not_found
  - DictKeyMapError et al -> PyError
  - model_list_to_dict    -> model_list_to_dict over an insertion-ordered
                             association list standing for a Python dict

Machine-level effects of the opaque SQLAlchemy driver (session creation,
rollback, close, pool disposal) are modelled as events in a trace or as
idempotent state transitions, matching their documented nominal behaviour.
-/

namespace EzLib

/-- Values of the json_ser type from src/ez_lib/types.py: JSON scalars plus
nested dictionaries and lists. -/
inductive Json where
  | null
  | num (n : Int)
  | str (s : String)
  | bool (b : Bool)
  | obj (fields : List (String × Json))
  | arr (elems : List Json)

/-- Python truthiness of a Json value: None, 0, the empty string, False and
empty containers are falsy, everything else is truthy. -/
def Json.truthy : Json → Bool
  | .null => false
  | .num n => !(n == 0)
  | .str s => !(s == "")
  | .bool b => b
  | .obj fs => !fs.isEmpty
  | .arr xs => !xs.isEmpty

/-- Hashable scalar values, the only values a Python dict accepts as keys. -/
inductive Scalar where
  | sNull
  | sNum (n : Int)
  | sStr (s : String)
  | sBool (b : Bool)
deriving DecidableEq

/-- View of a Json value as a hashable dict key; dictionaries and lists are
unhashable in Python, so they yield none. -/
def Json.asScalar : Json → Option Scalar
  | .null => some .sNull
  | .num n => some (.sNum n)
  | .str s => some (.sStr s)
  | .bool b => some (.sBool b)
  | .obj _ => none
  | .arr _ => none

/-- Python exceptions that the embedded code can raise. userError stands for
an arbitrary application exception raised inside a session scope body. -/
inductive PyError where
  | keyError (key : String)
  | typeError (msg : String)
  | attributeError (msg : String)
  | runtimeError (msg : String)
  | dictKeyMapError (modelCls : String) (idFieldName : String)
  | userError (code : Nat)
deriving DecidableEq

/-- Association-list lookup with string keys, first match wins, mirroring a
Python dict read. -/
def assocLookup : List (String × α) → String → Option α
  | [], _ => none
  | (k, v) :: rest, key => if key = k then some v else assocLookup rest key

/-- Association-list update with string keys: replace the first binding in
place, else append, mirroring a Python attribute or dict write. -/
def assocSet : List (String × α) → String → α → List (String × α)
  | [], k, v => [(k, v)]
  | (k2, v2) :: rest, k, v =>
    if k = k2 then (k, v) :: rest else (k2, v2) :: assocSet rest k v

/-- Subscript d[k] on a Json value: a key lookup on a dictionary raising
KeyError when absent, and a TypeError on any non-dictionary. -/
def jsonGet : Json → String → Except PyError Json
  | .obj fs, k =>
    match assocLookup fs k with
    | some v => .ok v
    | none => .error (.keyError k)
  | _, _ => .error (.typeError "object is not subscriptable")

/-- Iterated subscript walking a path of keys, as in the nested-field loop
of AbstractModelHelper.from_dict. -/
def jsonGetPath : Json → List String → Except PyError Json
  | j, [] => .ok j
  | j, k :: rest =>
    match jsonGet j k with
    | .ok v => jsonGetPath v rest
    | .error e => .error e

/-- Class-level attributes of AsyncPgWrapper. The constructor executes
AsyncPgWrapper.log = log, so the logger lives here, not on instances; a
logger is identified by a number, none meaning no logger configured. -/
structure ClsAttrs where
  log : Option Nat
deriving DecidableEq

/-- Instance state of an AsyncPgWrapper: whether the engine and the session
maker have been set by init, and whether the engine pool was disposed. -/
structure PgState where
  sessionMakerSet : Bool
  engineSet : Bool
  poolDisposed : Bool
deriving DecidableEq

/-- Constructor arguments of AsyncPgWrapper other than the logger. -/
structure PoolConfig where
  host : String
  port : Nat
  user : String
  passwd : String
  dbName : String
  poolSize : Nat := 10
  poolMaxOverflow : Nat := 10
  poolTimeout : Nat := 30
  poolRecycle : Nat := 1800
deriving DecidableEq

/-- AsyncPgWrapper.__init__: stores the configuration on the instance, writes
the logger into the class attribute AsyncPgWrapper.log (overwriting whatever
was there), and leaves engine and session maker unset. The instance state
carries no logger field, exactly as in the source. -/
def asyncPgWrapper_init (_g : ClsAttrs) (cfg : PoolConfig) (logArg : Option Nat) :
    ClsAttrs × PoolConfig × PgState :=
  ({ log := logArg }, cfg,
   { sessionMakerSet := false, engineSet := false, poolDisposed := false })

/-- AsyncPgWrapper._mk_conn_str: pure function of the configuration. -/
def mk_conn_str (cfg : PoolConfig) : String :=
  "postgresql+asyncpg://" ++ cfg.user ++ ":" ++ cfg.passwd ++ "@" ++
    cfg.host ++ ":" ++ toString cfg.port ++ "/" ++ cfg.dbName

/-- AsyncPgWrapper.init: creates the engine and the session maker (pooling is
lazy, so no connectivity is validated) and logs a creation message when the
class-level logger is set. -/
def init_pool (g : ClsAttrs) (_s : PgState) : PgState × List String :=
  ({ sessionMakerSet := true, engineSet := true, poolDisposed := false },
   if g.log.isSome then ["Postgres Connection Pool Created."] else [])

/-- Driver-level effects observable during one get_session scope. -/
inductive SessEvent where
  | createSession
  | logError (e : PyError)
  | rollback
  | commit
  | closeSession
deriving DecidableEq

/-- Outcome of the body run inside the session scope. -/
inductive BodyOutcome where
  | ok
  | raises (e : PyError)
deriving DecidableEq

/-- Guard value tested at the top of get_session. The source tests the
IMPORTED NAME async_sessionmaker (the SQLAlchemy class), not the instance
attribute self._session_maker; since the whole class body only exists when
the import succeeded, this name is always truthy. -/
def async_sessionmaker_imported : Bool := true

/-- AsyncPgWrapper.get_session, as the trace of driver effects plus the
exception propagated to the caller (none on clean exit). Mirrors the source:
guard on the imported async_sessionmaker name; call self._session_maker()
(a TypeError when it is still None); yield to the body; on an exception, log
it when the class-level logger is set, roll back, re-raise the same
exception; in all cases close the session last. -/
def get_session (g : ClsAttrs) (s : PgState) (body : BodyOutcome) :
    List SessEvent × Option PyError :=
  if async_sessionmaker_imported = false then
    ([], some (.runtimeError "SQLAlchemy Postgres async SessionMaker not inited."))
  else if s.sessionMakerSet = false then
    ([], some (.typeError "NoneType object is not callable"))
  else
    match body with
    | .ok => ([SessEvent.createSession, SessEvent.closeSession], none)
    | .raises e =>
        (SessEvent.createSession ::
          ((if g.log.isSome then [SessEvent.logError e] else []) ++
            [SessEvent.rollback, SessEvent.closeSession]),
         some e)

/-- AsyncPgWrapper.close: self._engine.pool.dispose(). With no engine this is
an attribute access on None; otherwise the pool is disposed, an idempotent
driver operation. Nothing else on the instance changes: the session maker
stays set and no closed flag exists. -/
def close (s : PgState) : Except PyError PgState :=
  if s.engineSet then .ok { s with poolDisposed := true }
  else .error (.attributeError "NoneType object has no attribute pool")

/-- Number of events in a trace satisfying a predicate. -/
def countEv (p : SessEvent → Bool) (tr : List SessEvent) : Nat :=
  (tr.filter p).length

def SessEvent.isRollback : SessEvent → Bool
  | .rollback => true
  | _ => false

def SessEvent.isClose : SessEvent → Bool
  | .closeSession => true
  | _ => false

def SessEvent.isCommit : SessEvent → Bool
  | .commit => true
  | _ => false

/-- Recognizer for the log event carrying exactly the error e. -/
def SessEvent.isLogOf (e : PyError) : SessEvent → Bool
  | .logError x => decide (x = e)
  | _ => false

/-- Per-type serialization configuration of an AbstractModelHelper subclass:
the class name, the keys of the class __dict__ in declaration order (the
declared public attributes iterated by from_dict), the table columns read by
to_values_dict, the _serialize_map rename table and the _except_fields list. -/
structure ModelCls where
  name : String
  fieldOrder : List String
  tableCols : List String
  serializeMap : List (String × String)
  exceptFields : List String

/-- One model instance: its class plus its currently set attribute values. -/
structure ModelInst where
  cls : ModelCls
  vals : List (String × Json)

/-- Attribute read on a model instance. Declared column attributes of a
declarative model always exist and read as None until set, so an unset field
yields Json.null. -/
def instGetattr (inst : ModelInst) (k : String) : Json :=
  (assocLookup inst.vals k).getD Json.null

/-- Attribute write on a model instance. -/
def setattrJ (inst : ModelInst) (k : String) (v : Json) : ModelInst :=
  { inst with vals := assocSet inst.vals k v }

/-- Test for the private-by-convention name mark of from_dict. -/
def startsWithUnderscore (s : String) : Bool :=
  match s.toList with
  | '_' :: _ => true
  | _ => false

/-- Splitter on the two-character separator used by field_name.split, scanning
left to right over non-overlapping occurrences, exactly like the Python
split method on a double underscore. -/
def splitUUList : List Char → List Char → List (List Char)
  | [], acc => [acc.reverse]
  | '_' :: '_' :: rest, acc => acc.reverse :: splitUUList rest []
  | c :: rest, acc => splitUUList rest (c :: acc)

/-- Split a field name on double underscores; a one-element result means the
name contains no double underscore. -/
def splitUU (s : String) : List String :=
  (splitUUList s.toList []).map (fun cs => String.mk cs)

/-- AbstractModelHelper._log_field_not_found: emits one debug message to the
class-level logger of AsyncPgWrapper when that logger is set, else nothing.
The message names the model class and the field. -/
def log_field_not_found (g : ClsAttrs) (clsName fn : String) : List String :=
  if g.log.isSome then
    ["SqlAlchemy Model " ++ clsName ++ " field " ++ fn ++ " not found."]
  else []

/-- Processing of one field name by AbstractModelHelper.from_dict: returns
the exception propagated out of the loop body if any, the instance after the
step, and the log messages emitted. Mirrors the source exactly: private and
excepted names are skipped; a name in _serialize_map is read from d under the
mapped key WITHOUT any exception handling; otherwise a name free of double
underscores is read directly, catching only KeyError, logging and re-raising
it only when strict; a name with double underscores walks the nested
dictionaries, with the same KeyError-only handling around the walk. -/
def fromDictStep (g : ClsAttrs) (d : Json) (strict : Bool)
    (inst : ModelInst) (fn : String) :
    Option PyError × ModelInst × List String :=
  if startsWithUnderscore fn || inst.cls.exceptFields.contains fn then
    (none, inst, [])
  else
    match assocLookup inst.cls.serializeMap fn with
    | some src =>
      match jsonGet d src with
      | .ok v => (none, setattrJ inst fn v, [])
      | .error e => (some e, inst, [])
    | none =>
      match splitUU fn with
      | [_] =>
        match jsonGet d fn with
        | .ok v => (none, setattrJ inst fn v, [])
        | .error (.keyError k) =>
          (if strict then some (.keyError k) else none, inst,
           log_field_not_found g inst.cls.name fn)
        | .error e => (some e, inst, [])
      | arr =>
        match jsonGetPath d arr with
        | .ok v => (none, setattrJ inst fn v, [])
        | .error (.keyError k) =>
          (if strict then some (.keyError k) else none, inst,
           log_field_not_found g inst.cls.name fn)
        | .error e => (some e, inst, [])

/-- Loop of from_dict over the declared field names: runs fromDictStep on
each name in order, accumulating attribute writes and log output, and stops
at the first propagated exception, keeping the fields already set. -/
def from_dict_go (g : ClsAttrs) (d : Json) (strict : Bool) :
    List String → ModelInst → List String →
    Option PyError × ModelInst × List String
  | [], inst, logs => (none, inst, logs)
  | fn :: rest, inst, logs =>
    match fromDictStep g d strict inst fn with
    | (some e, inst2, l2) => (some e, inst2, logs ++ l2)
    | (none, inst2, l2) => from_dict_go g d strict rest inst2 (logs ++ l2)

/-- AbstractModelHelper.from_dict: populate the model from the dictionary d,
walking the declared field names in declaration order. -/
def from_dict (g : ClsAttrs) (inst : ModelInst) (d : Json) (strict : Bool) :
    Option PyError × ModelInst × List String :=
  from_dict_go g d strict inst.cls.fieldOrder inst []

/-- AbstractModelHelper.to_values_dict: one entry per table column whose key
is not in _except_fields or is forced back in by the include argument, in
column order, each mapped to the current attribute value. -/
def to_values_dict (inst : ModelInst) (incl : List String) :
    List (String × Json) :=
  inst.cls.tableCols.filterMap (fun k =>
    if !(inst.cls.exceptFields.contains k) || incl.contains k then
      some (k, instGetattr inst k)
    else none)

/-- Python dict built by model_list_to_dict: insertion-ordered bindings from
hashable key values to model instances. -/
abbrev PgDict := List (Scalar × ModelInst)

/-- Read a binding from the dict. -/
def dictLookup : PgDict → Scalar → Option ModelInst
  | [], _ => none
  | (k, m) :: d, v => if v = k then some m else dictLookup d v

/-- Write a binding into the dict: replace the value of an existing key in
place, else append, as a Python dict assignment does. -/
def dictInsert : PgDict → Scalar → ModelInst → PgDict
  | [], k, m => [(k, m)]
  | (k2, m2) :: d, k, m =>
    if k2 = k then (k2, m) :: d else (k2, m2) :: dictInsert d k m

/-- Loop of model_list_to_dict: for each model read the id field, raise
DictKeyMapError on a falsy value, then use it as a dict key (a TypeError on
an unhashable value) with plain assignment, so a later model with the same
key value overwrites the earlier binding. -/
def model_list_to_dict_go : List ModelInst → String → PgDict →
    Except PyError PgDict
  | [], _, d => .ok d
  | m :: ms, f, d =>
    if (instGetattr m f).truthy then
      match (instGetattr m f).asScalar with
      | some s => model_list_to_dict_go ms f (dictInsert d s m)
      | none => .error (.typeError "unhashable type")
    else
      .error (.dictKeyMapError m.cls.name f)

/-- model_list_to_dict from the source: index a list of models by the value
of one of their fields. -/
def model_list_to_dict (models : List ModelInst) (f : String) :
    Except PyError PgDict :=
  model_list_to_dict_go models f []

/-- Join of two options preferring the first, used to state last-write-wins. -/
def optOr : Option ModelInst → Option ModelInst → Option ModelInst
  | some m, _ => some m
  | none, b => b

/-- Specification-side description of last-write-wins indexing: the last
model in the list whose field value reads as the scalar v, found by
preferring the tail over the head. -/
def lastWithKey (f : String) (v : Scalar) : List ModelInst → Option ModelInst
  | [] => none
  | m :: ms =>
    optOr (lastWithKey f v ms)
      (if (instGetattr m f).asScalar = some v then some m else none)

/-- Class attributes with no logger configured. -/
def gNone : ClsAttrs := { log := none }

/-- Class attributes with a logger configured. -/
def gSomeLog : ClsAttrs := { log := some 0 }

/-- Model class with one field renamed through _serialize_map: the attribute
my_id is read from the source key id. -/
def renameCls : ModelCls :=
  { name := "MyModel", fieldOrder := ["my_id"], tableCols := ["my_id"],
    serializeMap := [("my_id", "id")], exceptFields := [] }

/-- Fresh instance of the renamed-field model class. -/
def renameInst : ModelInst := { cls := renameCls, vals := [] }

/-- Model class with fields id and nm, no renames, no exclusions. -/
def m5cls : ModelCls :=
  { name := "M5", fieldOrder := ["id", "nm"], tableCols := ["id", "nm"],
    serializeMap := [], exceptFields := [] }

/-- Record with id 1 and nm a. -/
def modelA : ModelInst :=
  { cls := m5cls, vals := [("id", Json.num 1), ("nm", Json.str "a")] }

/-- Record with id 2 and nm b. -/
def modelB : ModelInst :=
  { cls := m5cls, vals := [("id", Json.num 2), ("nm", Json.str "b")] }

/-- Record with id 1 and nm c. -/
def modelC : ModelInst :=
  { cls := m5cls, vals := [("id", Json.num 1), ("nm", Json.str "c")] }

/-- Dict produced by indexing the three example records by id: the binding
for key 1 was overwritten in place by the last record. -/
def c5dict : PgDict :=
  [(Scalar.sNum 1, modelC), (Scalar.sNum 2, modelB)]

/-- Record whose id is present and set to the number 0. -/
def modelZ : ModelInst := { cls := m5cls, vals := [("id", Json.num 0)] }

/-- Record whose id is present and set to the empty string. -/
def modelE : ModelInst := { cls := m5cls, vals := [("id", Json.str "")] }

/-- Record whose id is present and set to False. -/
def modelF : ModelInst := { cls := m5cls, vals := [("id", Json.bool false)] }

/-- Model class whose exclusion list holds the id column. -/
def m6cls : ModelCls :=
  { name := "M6", fieldOrder := ["id", "nm"], tableCols := ["id", "nm"],
    serializeMap := [], exceptFields := ["id"] }

/-- Instance of the exclusion-list model class with both columns set. -/
def m6inst : ModelInst :=
  { cls := m6cls, vals := [("id", Json.num 7), ("nm", Json.str "n")] }

/-- C1: when the body of a successfully acquired session scope raises, the
original error (the very same value) propagates to the caller, the session is
rolled back exactly once, closed exactly once, the error is logged exactly
once when a logger is configured in the class attribute (never otherwise),
and the unique close happens strictly after the unique rollback. -/
theorem getSession_error_path_rollback_log_close_reraise
    (g : ClsAttrs) (eng pd : Bool) (e : PyError) :
    (get_session g ⟨true, eng, pd⟩ (.raises e)).2 = some e ∧
    countEv SessEvent.isRollback (get_session g ⟨true, eng, pd⟩ (.raises e)).1 = 1 ∧
    countEv SessEvent.isClose (get_session g ⟨true, eng, pd⟩ (.raises e)).1 = 1 ∧
    countEv (SessEvent.isLogOf e) (get_session g ⟨true, eng, pd⟩ (.raises e)).1
      = (if g.log.isSome then 1 else 0) ∧
    (get_session g ⟨true, eng, pd⟩ (.raises e)).1.findIdx SessEvent.isRollback
      < (get_session g ⟨true, eng, pd⟩ (.raises e)).1.findIdx SessEvent.isClose := by
  obtain ⟨l⟩ := g
  cases l <;>
    simp [get_session, async_sessionmaker_imported, countEv, List.filter,
      SessEvent.isRollback, SessEvent.isClose, SessEvent.isLogOf,
      List.findIdx_cons]

/-- C2: the rename-map branch of from_dict reads the mapped source key with
no KeyError handling, so a renamed field whose source key is absent raises
KeyError even with strict false, and emits no field-not-found diagnostic,
instead of the specified log-and-continue downgrade; with strict true the
same error is raised. This contradicts the from_dict docstring, which ties
throwing KeyError to strict being True. -/
theorem from_dict_renamed_field_missing_raises_nonstrict :
    from_dict gSomeLog renameInst (Json.obj []) false
      = (some (PyError.keyError "id"), renameInst, []) ∧
    from_dict gSomeLog renameInst (Json.obj []) true
      = (some (PyError.keyError "id"), renameInst, []) := ⟨rfl, rfl⟩

/-- C3: with the session maker not yet set by init, get_session raises the
untyped TypeError coming from calling None, never the typed RuntimeError of
its own guard, because that guard tests the imported async_sessionmaker
name, which is always truthy, instead of the instance attribute. -/
theorem getSession_before_init_raises_untyped_TypeError
    (g : ClsAttrs) (eng pd : Bool) (body : BodyOutcome) :
    get_session g ⟨false, eng, pd⟩ body
      = ([], some (.typeError "NoneType object is not callable")) := rfl

/-- C4 counterexample: starting from a fresh manager, run init then close;
the resulting state has the pool disposed, yet a subsequent get_session
acquires and closes a session and propagates no error at all, so no
PoolClosed failure occurs (no such error exists anywhere in the source). -/
theorem getSession_after_close_succeeds_cex :
    close (init_pool gNone ⟨false, false, false⟩).1
      = Except.ok ⟨true, true, true⟩ ∧
    (get_session gNone ⟨true, true, true⟩ .ok).2 = none ∧
    (get_session gNone ⟨true, true, true⟩ .ok).1
      = [SessEvent.createSession, SessEvent.closeSession] :=
  ⟨rfl, rfl, rfl⟩

/-- C4 amended: close leaves the session maker set and records no closed
state, so get_session on a disposed pool still succeeds; the only error that
can come out of such a scope is the one its body raises. -/
theorem getSession_after_close_no_poolclosed
    (g : ClsAttrs) (eng : Bool) (body : BodyOutcome) :
    (get_session g ⟨true, eng, true⟩ body).2
      = (match body with | .ok => none | .raises e => some e) := by
  cases body <;> rfl

/-- C7: when the body of a successfully acquired session scope completes
without error, no error propagates, the session is closed exactly once, no
rollback is invoked and the scope performs no commit of its own. -/
theorem getSession_ok_path_closes_once_no_rollback_no_commit
    (g : ClsAttrs) (eng pd : Bool) :
    (get_session g ⟨true, eng, pd⟩ .ok).2 = none ∧
    countEv SessEvent.isClose (get_session g ⟨true, eng, pd⟩ .ok).1 = 1 ∧
    countEv SessEvent.isRollback (get_session g ⟨true, eng, pd⟩ .ok).1 = 0 ∧
    countEv SessEvent.isCommit (get_session g ⟨true, eng, pd⟩ .ok).1 = 0 :=
  ⟨rfl, rfl, rfl, rfl⟩

/-- C8: on any manager whose engine has been set by init, close succeeds and
leaves the pool disposed, and a second close succeeds again, changes nothing
about the state, and leaves the pool disposed. -/
theorem close_twice_idempotent (sm pd : Bool) :
    close ⟨sm, true, pd⟩ = Except.ok ⟨sm, true, true⟩ ∧
    close ⟨sm, true, true⟩ = Except.ok ⟨sm, true, true⟩ :=
  ⟨rfl, rfl⟩

/-- C10: the constructor writes its logger argument into the class-level
attribute, so after constructing a second manager that attribute holds the
second logger whatever the first was; the field-not-found diagnostic of the
record serializer and the error logging of any session scope both read that
class attribute, hence the most recent construction determines both. -/
theorem class_level_logger_shared
    (g : ClsAttrs) (cfg1 cfg2 : PoolConfig) (l1 l2 : Option Nat)
    (cn fn : String) (eng pd : Bool) (e : PyError) :
    (asyncPgWrapper_init g cfg1 l1).1.log = l1 ∧
    (asyncPgWrapper_init (asyncPgWrapper_init g cfg1 l1).1 cfg2 l2).1.log = l2 ∧
    (log_field_not_found
        (asyncPgWrapper_init (asyncPgWrapper_init g cfg1 l1).1 cfg2 l2).1 cn fn
      = if l2.isSome then
          ["SqlAlchemy Model " ++ cn ++ " field " ++ fn ++ " not found."]
        else []) ∧
    (countEv (SessEvent.isLogOf e)
        (get_session
          (asyncPgWrapper_init (asyncPgWrapper_init g cfg1 l1).1 cfg2 l2).1
          ⟨true, eng, pd⟩ (.raises e)).1
      = if l2.isSome then 1 else 0) := by
  refine ⟨rfl, rfl, rfl, ?_⟩
  cases l2 <;>
    simp [asyncPgWrapper_init, get_session, async_sessionmaker_imported,
      countEv, List.filter, SessEvent.isLogOf]

lemma optOr_none_right (a : Option ModelInst) : optOr a none = a := by
  cases a <;> rfl

lemma optOr_assoc (a b c : Option ModelInst) :
    optOr (optOr a b) c = optOr a (optOr b c) := by
  cases a <;> rfl

lemma dictLookup_dictInsert (d : PgDict) (k : Scalar) (m : ModelInst)
    (v : Scalar) :
    dictLookup (dictInsert d k m) v
      = if v = k then some m else dictLookup d v := by
  induction d with
  | nil => simp [dictInsert, dictLookup]
  | cons p t ih =>
    obtain ⟨k2, m2⟩ := p
    by_cases h : k2 = k
    · subst h
      by_cases hv : v = k2 <;> simp [dictInsert, dictLookup, hv]
    · by_cases hv : v = k2 <;> by_cases hk : v = k <;>
        simp_all [dictInsert, dictLookup]

lemma lastWithKey_sound (f : String) (v : Scalar) (l : List ModelInst)
    (mo : ModelInst) (h : lastWithKey f v l = some mo) :
    (instGetattr mo f).asScalar = some v := by
  induction l with
  | nil => simp [lastWithKey] at h
  | cons m ms ih =>
    simp only [lastWithKey] at h
    cases hc : lastWithKey f v ms with
    | some m2 =>
      rw [hc] at h
      simp only [optOr] at h
      exact ih (hc.trans h)
    | none =>
      rw [hc] at h
      simp only [optOr] at h
      by_cases hcond : (instGetattr m f).asScalar = some v
      · rw [if_pos hcond] at h
        obtain rfl : m = mo := Option.some.inj h
        exact hcond
      · rw [if_neg hcond] at h
        exact absurd h (by simp)

lemma model_list_to_dict_go_ok (f : String) (models : List ModelInst) :
    ∀ d : PgDict,
      (∀ m ∈ models, (instGetattr m f).truthy = true ∧
        ((instGetattr m f).asScalar).isSome = true) →
      ∃ dd, model_list_to_dict_go models f d = Except.ok dd ∧
        ∀ v, dictLookup dd v
          = optOr (lastWithKey f v models) (dictLookup d v) := by
  induction models with
  | nil =>
    intro d _
    exact ⟨d, rfl, fun v => by simp [lastWithKey, optOr]⟩
  | cons m ms ih =>
    intro d h
    obtain ⟨ht, hs⟩ := h m (List.mem_cons_self m ms)
    obtain ⟨s, hsv⟩ := Option.isSome_iff_exists.mp hs
    obtain ⟨dd, hok, hl⟩ := ih (dictInsert d s m)
      (fun m2 hm2 => h m2 (List.mem_cons_of_mem m hm2))
    refine ⟨dd, ?_, ?_⟩
    · simp [model_list_to_dict_go, ht, hsv, hok]
    · intro v
      rw [hl v, dictLookup_dictInsert]
      simp only [lastWithKey]
      rw [optOr_assoc]
      congr 1
      rw [hsv]
      by_cases hv : v = s
      · subst hv
        simp [optOr]
      · have hne : ¬(some s = some v) := by
          intro hh
          exact hv (Option.some.inj hh).symm
        simp [optOr, hv, hne]

/-- C5: when every record in the list carries a truthy, hashable value in
the key field, model_list_to_dict succeeds; the resulting dict maps each
scalar v to the LAST record of the list whose key field holds v (later
records overwrite earlier ones), and every binding it returns is to a record
actually carrying that key value. -/
theorem model_list_to_dict_last_write_wins
    (models : List ModelInst) (f : String)
    (h : ∀ m ∈ models, (instGetattr m f).truthy = true ∧
        ((instGetattr m f).asScalar).isSome = true) :
    ∃ dd, model_list_to_dict models f = Except.ok dd ∧
      (∀ v, dictLookup dd v = lastWithKey f v models) ∧
      (∀ v mo, dictLookup dd v = some mo →
        (instGetattr mo f).asScalar = some v) := by
  obtain ⟨dd, hok, hl⟩ := model_list_to_dict_go_ok f models [] h
  have hl2 : ∀ v, dictLookup dd v = lastWithKey f v models := by
    intro v
    rw [hl v]
    exact optOr_none_right _
  refine ⟨dd, hok, hl2, ?_⟩
  intro v mo hmo
  rw [hl2 v] at hmo
  exact lastWithKey_sound f v models mo hmo

/-- C5 witness: over the records with id 1 and nm a, id 2 and nm b, id 1 and
nm c, indexing by id succeeds, key 1 maps to the last record (nm c) and key
2 maps to the record with nm b. -/
theorem model_list_to_dict_last_write_wins_witness :
    model_list_to_dict [modelA, modelB, modelC] "id" = Except.ok c5dict ∧
    dictLookup c5dict (Scalar.sNum 1) = some modelC ∧
    dictLookup c5dict (Scalar.sNum 2) = some modelB ∧
    dictLookup c5dict (Scalar.sNum 3) = none := by
  obtain ⟨dd, hok, hl, _⟩ :=
    model_list_to_dict_last_write_wins [modelA, modelB, modelC] "id"
      (by decide)
  have hdd : dd = c5dict := by
    have h2 : Except.ok (ε := PyError) dd = Except.ok c5dict := by
      rw [← hok]; rfl
    exact Except.ok.inj h2
  subst hdd
  exact ⟨hok, by rw [hl]; rfl, by rw [hl]; rfl, by rw [hl]; rfl⟩

lemma model_list_to_dict_go_err (f : String) (m : ModelInst)
    (post : List ModelInst) (hm : (instGetattr m f).truthy = false)
    (pre : List ModelInst) :
    ∀ d : PgDict,
      (∀ m2 ∈ pre, (instGetattr m2 f).truthy = true ∧
        ((instGetattr m2 f).asScalar).isSome = true) →
      model_list_to_dict_go (pre ++ m :: post) f d
        = Except.error (.dictKeyMapError m.cls.name f) := by
  induction pre with
  | nil =>
    intro d _
    simp [model_list_to_dict_go, hm]
  | cons m2 t ih =>
    intro d h
    obtain ⟨ht, hs⟩ := h m2 (List.mem_cons_self m2 t)
    obtain ⟨s, hsv⟩ := Option.isSome_iff_exists.mp hs
    simp only [List.cons_append, model_list_to_dict_go, ht, hsv, if_true]
    exact ih (dictInsert d s m2)
      (fun x hx => h x (List.mem_cons_of_mem m2 hx))

/-- C9: model_list_to_dict raises DictKeyMapError at the first record whose
key-field value is falsy, even when that value is present, 0, the empty
string, False and empty containers counting as missing exactly like None,
provided every earlier record carries a truthy hashable key value. -/
theorem model_list_to_dict_falsy_key_raises
    (pre : List ModelInst) (m : ModelInst) (post : List ModelInst)
    (f : String)
    (hpre : ∀ m2 ∈ pre, (instGetattr m2 f).truthy = true ∧
        ((instGetattr m2 f).asScalar).isSome = true)
    (hm : (instGetattr m f).truthy = false) :
    model_list_to_dict (pre ++ m :: post) f
      = Except.error (.dictKeyMapError m.cls.name f) :=
  model_list_to_dict_go_err f m post hm pre [] hpre

/-- C9 witness: a record whose id is present and equal to 0, to the empty
string, or to False can never be indexed by id: each raises DictKeyMapError
naming the model class M5 and the field id. -/
theorem model_list_to_dict_falsy_key_raises_witness :
    model_list_to_dict [modelZ] "id"
      = Except.error (.dictKeyMapError "M5" "id") ∧
    model_list_to_dict [modelE] "id"
      = Except.error (.dictKeyMapError "M5" "id") ∧
    model_list_to_dict [modelF] "id"
      = Except.error (.dictKeyMapError "M5" "id") :=
  ⟨model_list_to_dict_falsy_key_raises [] modelZ [] "id" (by simp) rfl,
   model_list_to_dict_falsy_key_raises [] modelE [] "id" (by simp) rfl,
   model_list_to_dict_falsy_key_raises [] modelF [] "id" (by simp) rfl⟩

lemma tvd_keys (inst : ModelInst) (incl : List String) (l : List String) :
    ((l.filterMap (fun k =>
        if !(inst.cls.exceptFields.contains k) || incl.contains k then
          some (k, instGetattr inst k)
        else none)).map Prod.fst)
      = l.filter
          (fun k => !(inst.cls.exceptFields.contains k) || incl.contains k) := by
  induction l with
  | nil => rfl
  | cons a t ih =>
    by_cases hP : a ∈ inst.cls.exceptFields <;>
      by_cases hI : a ∈ incl <;>
      simp_all [List.filterMap_cons, List.filter_cons]

lemma tvd_vals (inst : ModelInst) (incl : List String) (l : List String)
    (p : String × Json)
    (hp : p ∈ l.filterMap (fun k =>
        if !(inst.cls.exceptFields.contains k) || incl.contains k then
          some (k, instGetattr inst k)
        else none)) :
    p.2 = instGetattr inst p.1 := by
  rw [List.mem_filterMap] at hp
  obtain ⟨a, _, ha⟩ := hp
  split at ha
  · obtain rfl : (a, instGetattr inst a) = p := Option.some.inj ha
    rfl
  · exact absurd ha (by simp)

/-- C6: to_values_dict contains exactly the table columns passing the test
not-excluded-or-included, in column order, each mapped to its current value;
in particular a column in both the exclusion list and the include argument
appears in the result, and a column excluded and not included is absent. -/
theorem to_values_dict_membership (inst : ModelInst) (incl : List String) :
    ((to_values_dict inst incl).map Prod.fst
      = inst.cls.tableCols.filter
          (fun k => !(inst.cls.exceptFields.contains k) || incl.contains k)) ∧
    (∀ p ∈ to_values_dict inst incl, p.2 = instGetattr inst p.1) ∧
    (∀ k, k ∈ inst.cls.tableCols →
      k ∈ inst.cls.exceptFields → k ∈ incl →
      k ∈ (to_values_dict inst incl).map Prod.fst) ∧
    (∀ k, k ∈ inst.cls.exceptFields → k ∉ incl →
      k ∉ (to_values_dict inst incl).map Prod.fst) := by
  have hmap := tvd_keys inst incl inst.cls.tableCols
  refine ⟨hmap, ?_, ?_, ?_⟩
  · intro p hp
    exact tvd_vals inst incl inst.cls.tableCols p hp
  · intro k hk he hi
    show k ∈ (to_values_dict inst incl).map Prod.fst
    rw [to_values_dict, hmap]
    exact List.mem_filter.mpr ⟨hk, by simp [he, hi]⟩
  · intro k he hi hmem
    rw [to_values_dict, hmap] at hmem
    have hcond := (List.mem_filter.mp hmem).2
    simp [he, hi] at hcond

/-- C6 witness: on the model class whose exclusion list holds id, the result
of to_values_dict with an empty include omits the id column, and with
include containing id it contains the id column. -/
theorem to_values_dict_membership_witness :
    ((to_values_dict m6inst []).map Prod.fst).contains "id" = false ∧
    ((to_values_dict m6inst ["id"]).map Prod.fst).contains "id" = true := by
  constructor
  · have h :=
      (to_values_dict_membership m6inst []).2.2.2 "id" (by decide) (by decide)
    simpa using h
  · have h :=
      (to_values_dict_membership m6inst ["id"]).2.2.1 "id" (by decide)
        (by decide) (by decide)
    simpa using h

end EzLib
